import Mathlib

/-!
Shallow embedding of `src/index.ts` (bun-git-proxy), a stateless HTTP
forwarding proxy.  The embedding models:

* header maps as association lists of (name, value) pairs with the
  case-insensitive `get` / lowercasing `set` discipline of the WHATWG
  `Headers` class (header-name case folding is ASCII lowercasing);
* the path-splitting regex `([^\/]+)\/?(.*)` of `handleProxyRequest` as an
  explicit leftmost-match search over the character list (JS `.` does not
  match a newline, `[^\/]` does);
* `JSON.stringify` on flat string-valued objects;
* the upstream `fetch` as an oracle `OutboundCall → FetchOutcome` supplied as
  a parameter, so that theorems quantify over every possible upstream
  behaviour; the handler returns, besides the client-facing response, the
  outbound call it performed (`none` when no upstream call is made).

Upstream response bodies are streamed through unchanged; the embedding
tracks them by an abstract `bodyId`.
-/

/-- ASCII lowercase of a character, as performed by JS header-name
normalization (`Headers` lowercases ASCII A-Z; other characters are kept). -/
def lowerChar (c : Char) : Char :=
  if h : 65 ≤ c.toNat ∧ c.toNat ≤ 90 then
    ⟨UInt32.ofNat (c.toNat + 32), by
      have hsz : UInt32.size = 4294967296 := rfl
      have ht : (UInt32.ofNat (c.toNat + 32)).toNat = c.toNat + 32 :=
        UInt32.toNat_ofNat_of_lt (by omega)
      simp only [UInt32.isValidChar, ht, Nat.isValidChar]
      left; omega⟩
  else c

/-- ASCII lowercase of a header name. -/
def lowerName (s : String) : String := String.mk (s.data.map lowerChar)

/-- ALLOW_HEADERS constant of `src/index.ts`: inbound request headers
eligible to be forwarded upstream. -/
def ALLOW_HEADERS : List String :=
  ["accept-encoding", "accept-language", "accept", "access-control-allow-origin",
   "authorization", "cache-control", "connection", "content-length",
   "content-type", "dnt", "pragma", "range", "referer", "user-agent",
   "x-authorization", "x-http-method-override", "x-requested-with"]

/-- EXPOSE_HEADERS constant of `src/index.ts`: upstream response headers
eligible to be relayed to the client. -/
def EXPOSE_HEADERS : List String :=
  ["accept-ranges", "age", "cache-control", "content-length",
   "content-language", "content-type", "date", "etag", "expires",
   "last-modified", "pragma", "server", "transfer-encoding", "vary",
   "x-github-request-id", "x-redirected-url"]

/-- Case-insensitive header lookup, modelling `Headers.get` (first entry
whose ASCII-lowercased name matches). -/
def hGet : List (String × String) → String → Option String
  | [], _ => none
  | (k, v) :: t, name =>
    if lowerName k = lowerName name then some v else hGet t name

/-- Header update, modelling `Headers.set`: if an entry with the same
case-insensitive name exists its value is replaced in place, otherwise a new
entry with the lowercased name is appended. -/
def hSet (hs : List (String × String)) (name value : String) :
    List (String × String) :=
  if hs.any (fun p => lowerName p.1 == lowerName name) then
    hs.map (fun p =>
      if lowerName p.1 == lowerName name then (p.1, value) else p)
  else hs ++ [(lowerName name, value)]

/-- Conversion of a record of header literals into a `Headers` object (as in
`new Headers(corsHeaders())` or a `ResponseInit` headers record): every entry
is inserted via `set`, so names end up lowercased. -/
def mkHeaders (l : List (String × String)) : List (String × String) :=
  l.foldl (fun acc p => hSet acc p.1 p.2) []

/-- The `corsHeaders()` record of `src/index.ts`. -/
def corsHeaderList : List (String × String) :=
  [("Access-Control-Allow-Origin", "*"),
   ("Access-Control-Allow-Methods", "POST, GET, OPTIONS"),
   ("Access-Control-Allow-Headers", String.intercalate ", " ALLOW_HEADERS),
   ("Access-Control-Expose-Headers", String.intercalate ", " EXPOSE_HEADERS),
   ("Access-Control-Max-Age", "86400")]

/-- Lower/upper hex digit used by the `\u00XX` escapes of `JSON.stringify`. -/
def hexDigit (n : Nat) : Char :=
  if n < 10 then Char.ofNat (48 + n) else Char.ofNat (87 + n)

/-- Escaping of a single character inside a JSON string literal, as done by
`JSON.stringify` for the strings that occur here. -/
def jsEscapeChar (c : Char) : String :=
  if c = '"' then "\\\""
  else if c = '\\' then "\\\\"
  else if c = '\n' then "\\n"
  else if c = '\r' then "\\r"
  else if c = '\t' then "\\t"
  else if c = Char.ofNat 8 then "\\b"
  else if c = Char.ofNat 12 then "\\f"
  else if c.toNat < 32 then
    "\\u00" ++ String.mk [hexDigit (c.toNat / 16), hexDigit (c.toNat % 16)]
  else String.mk [c]

/-- JSON string literal for `s`. -/
def jsonStr (s : String) : String :=
  "\"" ++ String.join (s.data.map jsEscapeChar) ++ "\""

/-- The result of `JSON.stringify` on a flat object with string values, in
field order. -/
def jsonObj (fields : List (String × String)) : String :=
  "\x7b" ++
    String.intercalate ","
      (fields.map (fun p => jsonStr p.1 ++ ":" ++ jsonStr p.2)) ++
  "\x7d"

/-- An inbound request as seen by `handleProxyRequest`: the components of
`new URL(request.url)` it reads (`pathname`, `search` with its leading `?`,
`protocol` with its trailing `:`, `host`), the method, and the headers. -/
structure ProxyRequest where
  method : String
  pathname : String
  search : String
  protocol : String
  host : String
  headers : List (String × String)
deriving DecidableEq

/-- The final upstream `Response` produced by `fetch` (after any automatic
redirects): status, statusText, headers, the `redirected` flag, the final
`url`, and an abstract identifier of the streamed body. -/
structure UpstreamResponse where
  status : Nat
  statusText : String
  headers : List (String × String)
  redirected : Bool
  url : String
  bodyId : Nat
deriving DecidableEq

/-- A thrown fetch failure: either a JS `Error` carrying a message, or any
other thrown value (for which the code reports "Unknown error"). -/
inductive FetchError where
  | jsError (message : String)
  | nonError
deriving DecidableEq

/-- The `err instanceof Error ? err.message : 'Unknown error'` expression. -/
def fetchErrorMessage : FetchError → String
  | .jsError m => m
  | .nonError => "Unknown error"

/-- Outcome of the upstream `fetch`: a response, or a thrown failure. -/
inductive FetchOutcome where
  | ok (u : UpstreamResponse)
  | failed (e : FetchError)
deriving DecidableEq

/-- The outbound upstream request issued by the proxy: target URL, method,
headers, and whether a request body is forwarded (non-GET/HEAD). -/
structure OutboundCall where
  url : String
  method : String
  headers : List (String × String)
  hasBody : Bool
deriving DecidableEq

/-- Body of the client-facing response: `null` (OPTIONS), a JSON error
string, or the upstream body streamed through. -/
inductive RespBody where
  | noBody
  | jsonBody (s : String)
  | relayBody (bodyId : Nat)
deriving DecidableEq

/-- The client-facing `Response`. -/
structure ProxyResponse where
  status : Nat
  statusText : String
  headers : List (String × String)
  body : RespBody
deriving DecidableEq

/-- The `json(data, init)` helper of `src/index.ts`: a response with the
given status, a lone content-type header, and the stringified body. -/
def jsonResponse (status : Nat) (body : String) : ProxyResponse :=
  ⟨status, "", mkHeaders [("content-type", "application/json; charset=utf-8")],
   .jsonBody body⟩

/-- The fixed user-agent string the proxy substitutes. -/
def PROXY_USER_AGENT : String := "git/@isomorphic-git/cors-proxy (bun)"

/-- The test `/^git\//i.test(v)`: the ASCII-lowercased value starts with
`git/`. -/
def uaIsGit (v : String) : Bool := "git/".data.isPrefixOf (lowerName v).data

/-- Truthiness-plus-pattern condition `ua && /^git\//i.test(ua)` under which
the forwarded user-agent is kept (JS: `null` and `""` are falsy). -/
def uaPasses : Option String → Bool
  | none => false
  | some v => v != "" && uaIsGit v

/-- Removal of the first occurrence of a character, modelling the
single-replacement `String.prototype.replace(':', '')`. -/
def removeFirst (c : Char) : List Char → List Char
  | [] => []
  | x :: t => if x = c then t else x :: removeFirst c t

/-- The expression `url.protocol.replace(':', '')`. -/
def replaceFirstColon (s : String) : String := String.mk (removeFirst ':' s.data)

/-- The expression `url.pathname.replace(/^\//, '')`: drop a single leading
slash if present. -/
def stripLeadingSlash (s : String) : String :=
  match s.data with
  | '/' :: t => String.mk t
  | _ => s

/-- Attempt of the regex `([^\/]+)\/?(.*)` anchored at the start of `cs`:
group 1 greedily takes the maximal run of non-`/` characters (it must be
non-empty), one following `/` is consumed if present, and group 2 takes the
maximal run of non-newline characters (JS `.` excludes newlines).  Since the
trailing parts match the empty string, the greedy choices never backtrack. -/
def tryMatchAt (cs : List Char) : Option (List Char × List Char) :=
  let g1 := cs.takeWhile (fun c => c != '/')
  if g1.isEmpty then none
  else
    let rest :=
      match cs.dropWhile (fun c => c != '/') with
      | '/' :: t => t
      | r => r
    some (g1, rest.takeWhile (fun c => c != '\n'))

/-- Leftmost-match search of `String.prototype.match`: try the pattern at
each successive start position. -/
def regexSearch : List Char → Option (List Char × List Char)
  | [] => none
  | c :: t =>
    match tryMatchAt (c :: t) with
    | some r => some r
    | none => regexSearch t

/-- The expression `path.match(/([^\/]+)\/?(.*)/)`, keeping the two capture
groups (`domain`, `remainingPath`). -/
def matchPath (path : String) : Option (String × String) :=
  (regexSearch path.data).map (fun r => (String.mk r.1, String.mk r.2))

/-- One header-copying `for` loop of `handleProxyRequest`: for each name in
`names` (skipping those with `skip`), copy the value from `src` into the
accumulated headers when present. -/
def copyHeadersInto (names : List String) (skip : String → Bool)
    (src : List (String × String)) (base : List (String × String)) :
    List (String × String) :=
  names.foldl (fun acc h =>
    if skip h then acc
    else
      match hGet src h with
      | some v => hSet acc h v
      | none => acc) base

/-- Construction of `fwdHeaders`: the ALLOW_HEADERS copy loop, the three
X-Forwarded-* context headers, and the user-agent normalization. -/
def buildFwdHeaders (request : ProxyRequest) : List (String × String) :=
  let fwd := copyHeadersInto ALLOW_HEADERS (fun _ => false) request.headers []
  let fwd := hSet fwd "X-Forwarded-Proto" (replaceFirstColon request.protocol)
  let fwd := hSet fwd "X-Forwarded-For"
    ((hGet request.headers "x-forwarded-for").getD "0.0.0.0")
  let fwd := hSet fwd "X-Forwarded-Host" request.host
  if uaPasses (hGet fwd "user-agent") then fwd
  else hSet fwd "User-Agent" PROXY_USER_AGENT

/-- Construction of `outHeaders` on a successful upstream fetch: CORS
headers, the EXPOSE_HEADERS copy loop (which `continue`s on
`content-length`), and the redirect annotation. -/
def relayHeaders (upstream : UpstreamResponse) : List (String × String) :=
  let out := copyHeadersInto EXPOSE_HEADERS (fun h => h == "content-length")
    upstream.headers (mkHeaders corsHeaderList)
  if upstream.redirected then hSet out "x-redirected-url" upstream.url else out

/-- The `handleProxyRequest` function of `src/index.ts`.  `fetchFn` is the
upstream `fetch` oracle.  The second component records the outbound call
made, `none` when no upstream request is issued. -/
def handleProxyRequest (fetchFn : OutboundCall → FetchOutcome)
    (request : ProxyRequest) : ProxyResponse × Option OutboundCall :=
  let path := stripLeadingSlash request.pathname
  if request.method = "OPTIONS" then
    (⟨200, "", mkHeaders corsHeaderList, .noBody⟩, none)
  else if path = "" then
    (jsonResponse 400 (jsonObj [("error", "Invalid proxy URL format")]), none)
  else
    match matchPath path with
    | none => (jsonResponse 400 (jsonObj [("error", "Invalid path format")]), none)
    | some (domain, remainingPath) =>
      let targetURL := "https://" ++ domain ++ "/" ++ remainingPath ++ request.search
      let call : OutboundCall :=
        ⟨targetURL, request.method, buildFwdHeaders request,
         request.method != "GET" && request.method != "HEAD"⟩
      match fetchFn call with
      | .failed e =>
        (jsonResponse 500 (jsonObj
          [("error", "Proxy error"), ("message", fetchErrorMessage e),
           ("url", targetURL)]), some call)
      | .ok upstream =>
        (⟨upstream.status, upstream.statusText, relayHeaders upstream,
          .relayBody upstream.bodyId⟩, some call)

/-! ### Basic lemmas about ASCII lowercasing and header maps -/

theorem lowerChar_eq_self (c : Char) (h : ¬ (65 ≤ c.toNat ∧ c.toNat ≤ 90)) :
    lowerChar c = c := by
  simp only [lowerChar, dif_neg h]

theorem lowerChar_toNat (c : Char) (h : 65 ≤ c.toNat ∧ c.toNat ≤ 90) :
    (lowerChar c).toNat = c.toNat + 32 := by
  have hsz : UInt32.size = 4294967296 := rfl
  simp only [lowerChar, dif_pos h]
  show (UInt32.ofNat (c.toNat + 32)).toNat = c.toNat + 32
  exact UInt32.toNat_ofNat_of_lt (by omega)

theorem lowerChar_idem (c : Char) : lowerChar (lowerChar c) = lowerChar c := by
  by_cases h : 65 ≤ c.toNat ∧ c.toNat ≤ 90
  · have ht := lowerChar_toNat c h
    exact lowerChar_eq_self _ (by omega)
  · rw [lowerChar_eq_self c h]
    exact lowerChar_eq_self c h

theorem lowerName_idem (s : String) : lowerName (lowerName s) = lowerName s := by
  have hc : lowerChar ∘ lowerChar = lowerChar := funext lowerChar_idem
  simp only [lowerName, List.map_map, hc]

theorem hGet_congr (hs : List (String × String)) (a b : String)
    (h : lowerName a = lowerName b) : hGet hs a = hGet hs b := by
  induction hs with
  | nil => rfl
  | cons p t ih =>
    obtain ⟨k, v⟩ := p
    simp only [hGet, h, ih]

theorem hGet_eq_none (hs : List (String × String)) (m : String)
    (h : ∀ p ∈ hs, lowerName p.1 ≠ lowerName m) : hGet hs m = none := by
  induction hs with
  | nil => rfl
  | cons p t ih =>
    obtain ⟨k, v⟩ := p
    have hk : lowerName k ≠ lowerName m := h (k, v) (by simp)
    simp only [hGet, if_neg hk]
    exact ih (fun q hq => h q (by simp [hq]))


theorem hGet_append (a b : List (String × String)) (m : String) :
    hGet (a ++ b) m = match hGet a m with
      | some v => some v
      | none => hGet b m := by
  induction a with
  | nil => rfl
  | cons p t ih =>
    obtain ⟨k, v⟩ := p
    show hGet ((k, v) :: (t ++ b)) m = _
    by_cases hk : lowerName k = lowerName m
    · simp only [hGet, if_pos hk]
    · simp only [hGet, if_neg hk]
      exact ih

theorem hGet_map_replace (t : List (String × String)) (n v m : String) :
    hGet (t.map (fun p =>
        if lowerName p.1 == lowerName n then (p.1, v) else p)) m =
      if lowerName m = lowerName n then
        (if t.any (fun p => lowerName p.1 == lowerName n) then some v
         else hGet t m)
      else hGet t m := by
  induction t with
  | nil => simp [hGet]
  | cons p t ih =>
    obtain ⟨k, w⟩ := p
    rw [List.map_cons]
    by_cases hkn : lowerName k = lowerName n
    · have hb : (lowerName k == lowerName n) = true := beq_iff_eq.mpr hkn
      rw [if_pos hb]
      by_cases hkm : lowerName k = lowerName m
      · have hmn : lowerName m = lowerName n := by rw [← hkm, hkn]
        have hany : (((k, w) :: t).any
            (fun p => lowerName p.1 == lowerName n)) = true := by
          simp [List.any_cons, hb]
        show (if lowerName k = lowerName m then some v
          else hGet (t.map (fun p =>
            if lowerName p.1 == lowerName n then (p.1, v) else p)) m) = _
        rw [if_pos hkm, if_pos hmn, if_pos hany]
      · have hmn : ¬ lowerName m = lowerName n :=
          fun hc => hkm (hkn.trans hc.symm)
        show (if lowerName k = lowerName m then some v
          else hGet (t.map (fun p =>
            if lowerName p.1 == lowerName n then (p.1, v) else p)) m) = _
        rw [if_neg hkm, ih, if_neg hmn, if_neg hmn]
        simp only [hGet, if_neg hkm]
    · have hb : (lowerName k == lowerName n) = false :=
        beq_eq_false_iff_ne.mpr hkn
      rw [if_neg (by simp [hb] : ¬ ((lowerName k == lowerName n) = true))]
      by_cases hkm : lowerName k = lowerName m
      · have hmn : ¬ lowerName m = lowerName n :=
          fun hc => hkn (hkm.trans hc)
        simp only [hGet, if_pos hkm, if_neg hmn]
      · simp only [hGet, if_neg hkm, ih, List.any_cons, hb, Bool.false_or]

theorem hGet_hSet (hs : List (String × String)) (n v m : String) :
    hGet (hSet hs n v) m =
      if lowerName m = lowerName n then some v else hGet hs m := by
  unfold hSet
  by_cases hany : hs.any (fun p => lowerName p.1 == lowerName n)
  · rw [if_pos hany, hGet_map_replace]
    by_cases hmn : lowerName m = lowerName n
    · simp [hmn, hany]
    · simp [hmn]
  · rw [if_neg hany, hGet_append]
    have hnone : ∀ p ∈ hs, lowerName p.1 ≠ lowerName n := by
      intro p hp
      have h1 := (List.any_eq_true.not.mp hany)
      push_neg at h1
      have h2 := h1 p hp
      simpa [beq_iff_eq] using h2
    by_cases hmn : lowerName m = lowerName n
    · have hnone2 : hGet hs m = none :=
        hGet_eq_none hs m (fun p hp hc => hnone p hp (hc.trans hmn))
      rw [hnone2]
      have hll : lowerName (lowerName n) = lowerName m := by
        rw [lowerName_idem, hmn]
      show hGet [(lowerName n, v)] m = _
      rw [if_pos hmn]
      simp [hGet, hll]
    · cases hg : hGet hs m with
      | some w => rw [if_neg hmn]
      | none =>
        rw [if_neg hmn]
        have hne : lowerName (lowerName n) ≠ lowerName m := by
          rw [lowerName_idem]
          exact fun hc => hmn hc.symm
        simp [hGet, hne]

/-! ### Characterization of the header-copying loops -/

theorem hGet_copyHeadersInto (names : List String) (skip : String → Bool)
    (src base : List (String × String)) (m : String) :
    hGet (copyHeadersInto names skip src base) m =
      if (names.any (fun h => !skip h && (lowerName h == lowerName m))
          && (hGet src m).isSome) then hGet src m
      else hGet base m := by
  induction names generalizing base with
  | nil => simp [copyHeadersInto]
  | cons h t ih =>
    have hstep : copyHeadersInto (h :: t) skip src base =
        copyHeadersInto t skip src
          (if skip h then base
           else match hGet src h with
             | some v => hSet base h v
             | none => base) := by
      simp only [copyHeadersInto, List.foldl_cons]
    by_cases hskip : skip h
    · rw [hstep, if_pos hskip, ih]
      simp [List.any_cons, hskip]
    · rw [hstep, if_neg hskip]
      by_cases hhm : lowerName h = lowerName m
      · have hsrc : hGet src h = hGet src m := hGet_congr src h m hhm
        cases hg : hGet src m with
        | some v =>
          rw [hsrc, hg, ih]
          have hset := hGet_hSet base h v m
          rw [if_pos hhm.symm] at hset
          simp [List.any_cons, hskip, hhm, hset, hg]
        | none =>
          rw [hsrc, hg, ih]
          simp [List.any_cons, hg]
      · cases hgh : hGet src h with
        | some v =>
          rw [ih]
          have hset := hGet_hSet base h v m
          rw [if_neg (fun hc : lowerName m = lowerName h => hhm hc.symm)]
            at hset
          simp [List.any_cons, hskip, hhm, hset]
        | none =>
          rw [ih]
          simp [List.any_cons, hhm]

/-! ### Characterization of the path regex -/

theorem string_mk_data (s : String) : String.mk s.data = s := rfl

theorem dropWhile_head_not {α : Type} (p : α → Bool) (l : List α) (d : α)
    (t : List α) (h : l.dropWhile p = d :: t) : p d = false := by
  induction l with
  | nil => simp at h
  | cons c cs ih =>
    rw [List.dropWhile_cons] at h
    by_cases hc : p c
    · rw [if_pos hc] at h
      exact ih h
    · rw [if_neg hc] at h
      cases h
      exact Bool.of_not_eq_true hc

theorem takeWhile_append_fst {α : Type} (p : α → Bool) (l1 : List α) (b : α)
    (l2 : List α) (h : ∀ a ∈ l1, p a = true) (hb : p b = false) :
    (l1 ++ b :: l2).takeWhile p = l1 := by
  induction l1 with
  | nil => simp [List.takeWhile_cons, hb]
  | cons c cs ih =>
    have hc : p c = true := h c (by simp)
    simp only [List.cons_append, List.takeWhile_cons, hc, if_true]
    rw [ih (fun a ha => h a (by simp [ha]))]

theorem dropWhile_append_fst {α : Type} (p : α → Bool) (l1 : List α) (b : α)
    (l2 : List α) (h : ∀ a ∈ l1, p a = true) (hb : p b = false) :
    (l1 ++ b :: l2).dropWhile p = b :: l2 := by
  induction l1 with
  | nil => simp [List.dropWhile_cons, hb]
  | cons c cs ih =>
    have hc : p c = true := h c (by simp)
    simp only [List.cons_append, List.dropWhile_cons, hc, if_true]
    exact ih (fun a ha => h a (by simp [ha]))

theorem tryMatchAt_eq (cs : List Char)
    (hne : cs.takeWhile (fun c => c != '/') ≠ []) :
    tryMatchAt cs = some (cs.takeWhile (fun c => c != '/'),
      (match cs.dropWhile (fun c => c != '/') with
        | '/' :: t => t
        | r => r).takeWhile (fun c => c != '\n')) := by
  simp only [tryMatchAt]
  rw [if_neg (by simpa [List.isEmpty_iff] using hne)]

theorem tryMatchAt_eq_none_iff (ds : List Char) :
    tryMatchAt ds = none ↔ ds.takeWhile (fun c => c != '/') = [] := by
  simp only [tryMatchAt]
  by_cases h : (ds.takeWhile (fun c => c != '/')).isEmpty
  · rw [if_pos h]
    rw [List.isEmpty_iff] at h
    simp [h]
  · rw [if_neg h]
    rw [List.isEmpty_iff] at h
    simp [h]

theorem regexSearch_eq (cs : List Char) :
    regexSearch cs = tryMatchAt (cs.dropWhile (fun c => c == '/')) := by
  induction cs with
  | nil => rfl
  | cons c t ih =>
    by_cases hc : c = '/'
    · subst hc
      have h1 : tryMatchAt ('/' :: t) = none := by
        rw [tryMatchAt_eq_none_iff]
        simp [List.takeWhile_cons]
      have h2 : List.dropWhile (fun c => c == '/') ('/' :: t) =
          List.dropWhile (fun c => c == '/') t := by
        simp [List.dropWhile_cons]
      show (match tryMatchAt ('/' :: t) with
        | some r => some r
        | none => regexSearch t) = _
      rw [h1, h2]
      exact ih
    · have h2 : List.dropWhile (fun c => c == '/') (c :: t) = c :: t := by
        simp [List.dropWhile_cons, hc]
      have hne : (c :: t).takeWhile (fun c => c != '/') ≠ [] := by
        simp [List.takeWhile_cons, hc]
      have h1 := tryMatchAt_eq (c :: t) hne
      show (match tryMatchAt (c :: t) with
        | some r => some r
        | none => regexSearch t) = _
      rw [h1, h2, h1]

theorem regexSearch_eq_none_iff (cs : List Char) :
    regexSearch cs = none ↔ ∀ c ∈ cs, c = '/' := by
  rw [regexSearch_eq, tryMatchAt_eq_none_iff]
  constructor
  · intro h c hc
    by_contra hne
    cases hds : cs.dropWhile (fun c => c == '/') with
    | nil =>
      rw [List.dropWhile_eq_nil_iff] at hds
      have := hds c hc
      simp at this
      exact hne this
    | cons d t =>
      have hd := dropWhile_head_not _ cs d t hds
      simp at hd
      rw [hds, List.takeWhile_cons] at h
      simp [hd] at h
  · intro h
    have hds : cs.dropWhile (fun c => c == '/') = [] := by
      rw [List.dropWhile_eq_nil_iff]
      intro c hc
      simp [h c hc]
    rw [hds]
    rfl

theorem matchPath_eq_none_iff (s : String) :
    matchPath s = none ↔ ∀ c ∈ s.data, c = '/' := by
  unfold matchPath
  rw [← regexSearch_eq_none_iff]
  cases regexSearch s.data <;> simp

theorem regexSearch_first_run (cs : List Char) (r : List Char × List Char)
    (h : regexSearch cs = some r) :
    r.1 = (cs.dropWhile (fun c => c == '/')).takeWhile (fun c => c != '/') := by
  rw [regexSearch_eq] at h
  by_cases hne : (cs.dropWhile (fun c => c == '/')).takeWhile
      (fun c => c != '/') = []
  · rw [(tryMatchAt_eq_none_iff _).mpr hne] at h
    cases h
  · rw [tryMatchAt_eq _ hne] at h
    cases h
    rfl

/-! ### Evaluating the translator on well-formed paths -/

theorem matchPath_split (d r : String) (hne : d.data ≠ [])
    (hns : ∀ c ∈ d.data, c ≠ '/') (hnl : ∀ c ∈ r.data, c ≠ '\n') :
    matchPath (d ++ "/" ++ r) = some (d, r) := by
  have hdata : (d ++ "/" ++ r).data = d.data ++ '/' :: r.data := by
    rw [String.data_append, String.data_append]
    simp [List.append_assoc]
  have hall : ∀ a ∈ d.data, (a != '/') = true := by
    intro a ha
    simp [hns a ha]
  have hslash : (('/' : Char) != '/') = false := by decide
  unfold matchPath
  rw [hdata]
  have hds : (d.data ++ '/' :: r.data).dropWhile (fun c => c == '/') =
      d.data ++ '/' :: r.data := by
    cases hd : d.data with
    | nil => exact absurd hd hne
    | cons c cs =>
      have hcne : c ≠ '/' := hns c (by rw [hd]; simp)
      rw [List.cons_append, List.dropWhile_cons]
      simp [hcne]
  rw [regexSearch_eq, hds,
    tryMatchAt_eq _ (by rw [takeWhile_append_fst _ _ _ _ hall hslash]; exact hne)]
  rw [takeWhile_append_fst _ _ _ _ hall hslash,
    dropWhile_append_fst _ _ _ _ hall hslash]
  have hrall : ∀ a ∈ r.data, (a != '\n') = true := by
    intro a ha
    simp [hnl a ha]
  rw [show (match ('/' :: r.data : List Char) with
      | '/' :: t => t
      | r => r) = r.data from rfl]
  rw [List.takeWhile_eq_self_iff.mpr hrall]
  simp [string_mk_data]

theorem matchPath_bare (d : String) (hne : d.data ≠ [])
    (hns : ∀ c ∈ d.data, c ≠ '/') :
    matchPath d = some (d, "") := by
  have hall : ∀ a ∈ d.data, (a != '/') = true := by
    intro a ha
    simp [hns a ha]
  unfold matchPath
  have hds : d.data.dropWhile (fun c => c == '/') = d.data := by
    cases hd : d.data with
    | nil => exact absurd hd hne
    | cons c cs =>
      have hcne : c ≠ '/' := hns c (by rw [hd]; simp)
      rw [List.dropWhile_cons]
      simp [hcne]
  rw [regexSearch_eq, hds,
    tryMatchAt_eq _ (by rw [List.takeWhile_eq_self_iff.mpr hall]; exact hne)]
  rw [List.takeWhile_eq_self_iff.mpr hall]
  rw [List.dropWhile_eq_nil_iff.mpr hall]
  simp [string_mk_data]

theorem stripLeadingSlash_concat (s : String) :
    stripLeadingSlash ("/" ++ s) = s := by
  have hd : ("/" ++ s).data = '/' :: s.data := by
    rw [String.data_append]
    rfl
  unfold stripLeadingSlash
  rw [hd]
  rfl

/-! ### Case analysis of the handler -/

theorem handle_options (fetchFn : OutboundCall → FetchOutcome)
    (r : ProxyRequest) (h : r.method = "OPTIONS") :
    handleProxyRequest fetchFn r =
      (⟨200, "", mkHeaders corsHeaderList, .noBody⟩, none) := by
  simp only [handleProxyRequest]
  rw [if_pos h]

theorem handle_invalid_url (fetchFn : OutboundCall → FetchOutcome)
    (r : ProxyRequest) (h1 : r.method ≠ "OPTIONS")
    (h2 : stripLeadingSlash r.pathname = "") :
    handleProxyRequest fetchFn r =
      (jsonResponse 400 (jsonObj [("error", "Invalid proxy URL format")]),
       none) := by
  simp only [handleProxyRequest]
  rw [if_neg h1, if_pos h2]

theorem handle_invalid_path (fetchFn : OutboundCall → FetchOutcome)
    (r : ProxyRequest) (h1 : r.method ≠ "OPTIONS")
    (h2 : stripLeadingSlash r.pathname ≠ "")
    (h3 : matchPath (stripLeadingSlash r.pathname) = none) :
    handleProxyRequest fetchFn r =
      (jsonResponse 400 (jsonObj [("error", "Invalid path format")]),
       none) := by
  simp only [handleProxyRequest]
  rw [if_neg h1, if_neg h2, h3]

theorem handle_call (fetchFn : OutboundCall → FetchOutcome)
    (r : ProxyRequest) (domain rem : String) (h1 : r.method ≠ "OPTIONS")
    (h2 : stripLeadingSlash r.pathname ≠ "")
    (h3 : matchPath (stripLeadingSlash r.pathname) = some (domain, rem)) :
    handleProxyRequest fetchFn r =
      (match fetchFn ⟨"https://" ++ domain ++ "/" ++ rem ++ r.search,
          r.method, buildFwdHeaders r,
          r.method != "GET" && r.method != "HEAD"⟩ with
       | .failed e =>
         (jsonResponse 500 (jsonObj
           [("error", "Proxy error"), ("message", fetchErrorMessage e),
            ("url", "https://" ++ domain ++ "/" ++ rem ++ r.search)]),
          some ⟨"https://" ++ domain ++ "/" ++ rem ++ r.search,
            r.method, buildFwdHeaders r,
            r.method != "GET" && r.method != "HEAD"⟩)
       | .ok u =>
         (⟨u.status, u.statusText, relayHeaders u, .relayBody u.bodyId⟩,
          some ⟨"https://" ++ domain ++ "/" ++ rem ++ r.search,
            r.method, buildFwdHeaders r,
            r.method != "GET" && r.method != "HEAD"⟩)) := by
  simp only [handleProxyRequest]
  rw [if_neg h1, if_neg h2, h3]

theorem handle_call_inv (fetchFn : OutboundCall → FetchOutcome)
    (r : ProxyRequest) (call : OutboundCall)
    (h : (handleProxyRequest fetchFn r).2 = some call) :
    ∃ domain rem,
      r.method ≠ "OPTIONS" ∧
      stripLeadingSlash r.pathname ≠ "" ∧
      matchPath (stripLeadingSlash r.pathname) = some (domain, rem) ∧
      call = ⟨"https://" ++ domain ++ "/" ++ rem ++ r.search, r.method,
              buildFwdHeaders r, r.method != "GET" && r.method != "HEAD"⟩ ∧
      (handleProxyRequest fetchFn r).1 =
        (match fetchFn call with
         | .failed e => jsonResponse 500 (jsonObj
             [("error", "Proxy error"), ("message", fetchErrorMessage e),
              ("url", call.url)])
         | .ok u =>
           ⟨u.status, u.statusText, relayHeaders u, .relayBody u.bodyId⟩) := by
  by_cases h1 : r.method = "OPTIONS"
  · rw [handle_options fetchFn r h1] at h
    simp at h
  by_cases h2 : stripLeadingSlash r.pathname = ""
  · rw [handle_invalid_url fetchFn r h1 h2] at h
    simp at h
  cases h3 : matchPath (stripLeadingSlash r.pathname) with
  | none =>
    rw [handle_invalid_path fetchFn r h1 h2 h3] at h
    simp at h
  | some pr =>
    obtain ⟨domain, rem⟩ := pr
    have hc := handle_call fetchFn r domain rem h1 h2 h3
    rw [hc] at h
    refine ⟨domain, rem, h1, h2, rfl, ?_, ?_⟩
    · cases hf : fetchFn ⟨"https://" ++ domain ++ "/" ++ rem ++ r.search,
          r.method, buildFwdHeaders r,
          r.method != "GET" && r.method != "HEAD"⟩ with
      | ok u =>
        rw [hf] at h
        simpa using h.symm
      | failed e =>
        rw [hf] at h
        simpa using h.symm
    · cases hf : fetchFn ⟨"https://" ++ domain ++ "/" ++ rem ++ r.search,
          r.method, buildFwdHeaders r,
          r.method != "GET" && r.method != "HEAD"⟩ with
      | ok u =>
        rw [hf] at h
        simp at h
        rw [hc, hf, ← h, hf]
      | failed e =>
        rw [hf] at h
        simp at h
        rw [hc, hf, ← h, hf]

/-- The five response-header names always present from `corsHeaders()`
(lower-cased). -/
def CORS_HEADER_NAMES : List String :=
  ["access-control-allow-origin", "access-control-allow-methods",
   "access-control-allow-headers", "access-control-expose-headers",
   "access-control-max-age"]

/-- The three forwarding-context header names the proxy always sets on the
outbound request (lower-cased). -/
def XF_HEADER_NAMES : List String :=
  ["x-forwarded-proto", "x-forwarded-for", "x-forwarded-host"]

theorem allow_lower : ∀ x ∈ ALLOW_HEADERS, lowerName x = x := by decide

theorem expose_lower : ∀ x ∈ EXPOSE_HEADERS, lowerName x = x := by decide

theorem copyAllowed_get_mem (src base : List (String × String)) (m : String)
    (h : lowerName m ∈ ALLOW_HEADERS) :
    hGet (copyHeadersInto ALLOW_HEADERS (fun _ => false) src base) m =
      match hGet src m with
      | some v => some v
      | none => hGet base m := by
  rw [hGet_copyHeadersInto]
  have hany : (ALLOW_HEADERS.any
      (fun x => !(fun _ : String => false) x
        && (lowerName x == lowerName m))) = true := by
    rw [List.any_eq_true]
    refine ⟨lowerName m, h, ?_⟩
    simp [lowerName_idem]
  rw [hany]
  cases hg : hGet src m <;> simp [hg]

theorem copyAllowed_get_notmem (src base : List (String × String))
    (m : String) (h : lowerName m ∉ ALLOW_HEADERS) :
    hGet (copyHeadersInto ALLOW_HEADERS (fun _ => false) src base) m =
      hGet base m := by
  rw [hGet_copyHeadersInto]
  have hany : (ALLOW_HEADERS.any
      (fun x => !(fun _ : String => false) x
        && (lowerName x == lowerName m))) = false := by
    rw [List.any_eq_false]
    intro x hx
    have hlx : lowerName x = x := allow_lower x hx
    simp [hlx]
    exact fun hc => h (hc ▸ hx)
  rw [hany]
  simp

theorem copyExpose_get_mem (src base : List (String × String)) (m : String)
    (h : lowerName m ∈ EXPOSE_HEADERS) (hcl : lowerName m ≠ "content-length") :
    hGet (copyHeadersInto EXPOSE_HEADERS (fun h => h == "content-length")
        src base) m =
      match hGet src m with
      | some v => some v
      | none => hGet base m := by
  rw [hGet_copyHeadersInto]
  have hany : (EXPOSE_HEADERS.any
      (fun x => !(fun h : String => h == "content-length") x
        && (lowerName x == lowerName m))) = true := by
    rw [List.any_eq_true]
    refine ⟨lowerName m, h, ?_⟩
    simp [lowerName_idem, hcl]
  rw [hany]
  cases hg : hGet src m <;> simp [hg]

theorem copyExpose_get_notmem (src base : List (String × String))
    (m : String) (h : lowerName m ∉ EXPOSE_HEADERS) :
    hGet (copyHeadersInto EXPOSE_HEADERS (fun h => h == "content-length")
        src base) m = hGet base m := by
  rw [hGet_copyHeadersInto]
  have hany : (EXPOSE_HEADERS.any
      (fun x => !(fun h : String => h == "content-length") x
        && (lowerName x == lowerName m))) = false := by
    rw [List.any_eq_false]
    intro x hx
    have hlx : lowerName x = x := expose_lower x hx
    simp [hlx]
    intro hsk
    exact fun hc => h (hc ▸ hx)
  rw [hany]
  simp

theorem copyExpose_get_cl (src base : List (String × String)) :
    hGet (copyHeadersInto EXPOSE_HEADERS (fun h => h == "content-length")
        src base) "content-length" = hGet base "content-length" := by
  rw [hGet_copyHeadersInto]
  have hany : (EXPOSE_HEADERS.any
      (fun x => !(fun h : String => h == "content-length") x
        && (lowerName x == lowerName "content-length"))) = false := by
    decide
  rw [hany]
  simp

theorem cors_get_notmem (m : String) (hm : lowerName m ∉ CORS_HEADER_NAMES) :
    hGet (mkHeaders corsHeaderList) m = none := by
  apply hGet_eq_none
  intro p hp
  have hcl : mkHeaders corsHeaderList =
      [("access-control-allow-origin", "*"),
       ("access-control-allow-methods", "POST, GET, OPTIONS"),
       ("access-control-allow-headers", String.intercalate ", " ALLOW_HEADERS),
       ("access-control-expose-headers", String.intercalate ", " EXPOSE_HEADERS),
       ("access-control-max-age", "86400")] := by rfl
  rw [hcl] at hp
  simp only [List.mem_cons, List.not_mem_nil, or_false] at hp
  rcases hp with rfl | rfl | rfl | rfl | rfl
  · intro hc
    apply hm
    rw [← hc]
    decide
  · intro hc
    apply hm
    rw [← hc]
    decide
  · intro hc
    apply hm
    rw [← hc]
    decide
  · intro hc
    apply hm
    rw [← hc]
    decide
  · intro hc
    apply hm
    rw [← hc]
    decide

theorem hGet_fwd_base (r : ProxyRequest) (name : String)
    (hallow : lowerName name ∉ ALLOW_HEADERS)
    (hxf : lowerName name ∉ XF_HEADER_NAMES) :
    hGet (hSet (hSet (hSet
        (copyHeadersInto ALLOW_HEADERS (fun _ => false) r.headers [])
        "X-Forwarded-Proto" (replaceFirstColon r.protocol))
        "X-Forwarded-For" ((hGet r.headers "x-forwarded-for").getD "0.0.0.0"))
        "X-Forwarded-Host" r.host) name = none := by
  have hp : lowerName name ≠ lowerName "X-Forwarded-Proto" := by
    intro hc
    apply hxf
    rw [hc]
    decide
  have hf : lowerName name ≠ lowerName "X-Forwarded-For" := by
    intro hc
    apply hxf
    rw [hc]
    decide
  have hh : lowerName name ≠ lowerName "X-Forwarded-Host" := by
    intro hc
    apply hxf
    rw [hc]
    decide
  rw [hGet_hSet, if_neg hh, hGet_hSet, if_neg hf, hGet_hSet, if_neg hp,
    copyAllowed_get_notmem _ _ _ hallow]
  rfl

theorem hGet_fwd_base_ua (r : ProxyRequest) :
    hGet (hSet (hSet (hSet
        (copyHeadersInto ALLOW_HEADERS (fun _ => false) r.headers [])
        "X-Forwarded-Proto" (replaceFirstColon r.protocol))
        "X-Forwarded-For" ((hGet r.headers "x-forwarded-for").getD "0.0.0.0"))
        "X-Forwarded-Host" r.host) "user-agent" =
      hGet r.headers "user-agent" := by
  rw [hGet_hSet, if_neg (by decide), hGet_hSet, if_neg (by decide),
    hGet_hSet, if_neg (by decide), copyAllowed_get_mem _ _ _ (by decide)]
  cases hg : hGet r.headers "user-agent" <;> rfl

theorem hGet_fwd_none (r : ProxyRequest) (name : String)
    (hallow : lowerName name ∉ ALLOW_HEADERS)
    (hxf : lowerName name ∉ XF_HEADER_NAMES) :
    hGet (buildFwdHeaders r) name = none := by
  have hua : lowerName name ≠ lowerName "User-Agent" := by
    intro hc
    apply hallow
    rw [hc]
    decide
  simp only [buildFwdHeaders]
  split
  · exact hGet_fwd_base r name hallow hxf
  · rw [hGet_hSet, if_neg hua]
    exact hGet_fwd_base r name hallow hxf

theorem hGet_fwd_ua (r : ProxyRequest) :
    hGet (buildFwdHeaders r) "user-agent" =
      some (match hGet r.headers "user-agent" with
            | some v => if uaIsGit v then v else PROXY_USER_AGENT
            | none => PROXY_USER_AGENT) := by
  simp only [buildFwdHeaders]
  split
  · next hpass =>
    rw [hGet_fwd_base_ua r] at hpass
    cases hg : hGet r.headers "user-agent" with
    | none =>
      rw [hg] at hpass
      simp [uaPasses] at hpass
    | some v =>
      rw [hg] at hpass
      simp only [uaPasses, Bool.and_eq_true, bne_iff_ne, ne_eq] at hpass
      rw [hGet_fwd_base_ua r, hg]
      simp [hpass.2]
  · next hpass =>
    rw [hGet_fwd_base_ua r] at hpass
    rw [hGet_hSet, if_pos (by decide)]
    cases hg : hGet r.headers "user-agent" with
    | none => rfl
    | some v =>
      rw [hg] at hpass
      simp only [uaPasses, Bool.and_eq_true, bne_iff_ne, ne_eq,
        not_and] at hpass
      by_cases hv : v = ""
      · subst hv
        have hgit : uaIsGit "" = false := by decide
        simp [hgit]
      · have hgit : ¬ uaIsGit v = true := hpass hv
        simp [hgit]

theorem relay_cl (u : UpstreamResponse) :
    hGet (relayHeaders u) "content-length" = none := by
  simp only [relayHeaders]
  split
  · rw [hGet_hSet, if_neg (by decide), copyExpose_get_cl]
    exact cors_get_notmem _ (by decide)
  · rw [copyExpose_get_cl]
    exact cors_get_notmem _ (by decide)

theorem relay_notmem (u : UpstreamResponse) (name : String)
    (hexp : lowerName name ∉ EXPOSE_HEADERS)
    (hcors : lowerName name ∉ CORS_HEADER_NAMES) :
    hGet (relayHeaders u) name = none := by
  have hxru : lowerName name ≠ lowerName "x-redirected-url" := by
    intro hc
    apply hexp
    rw [hc]
    decide
  simp only [relayHeaders]
  split
  · rw [hGet_hSet, if_neg hxru, copyExpose_get_notmem _ _ _ hexp]
    exact cors_get_notmem _ hcors
  · rw [copyExpose_get_notmem _ _ _ hexp]
    exact cors_get_notmem _ hcors

theorem relay_xru (u : UpstreamResponse) :
    hGet (relayHeaders u) "x-redirected-url" =
      (if u.redirected then some u.url
       else hGet u.headers "x-redirected-url") := by
  simp only [relayHeaders]
  split
  · next hr =>
    rw [hGet_hSet, if_pos rfl]
  · next hr =>
    rw [copyExpose_get_mem _ _ _ (by decide) (by decide)]
    cases hg : hGet u.headers "x-redirected-url" with
    | some v => rfl
    | none => exact cors_get_notmem _ (by decide)

theorem string_append_empty (s : String) : s ++ "" = s := by
  cases s with
  | mk d =>
    show String.mk (d ++ []) = String.mk d
    rw [List.append_nil]

theorem data_append_slash (d r : String) :
    (d ++ "/" ++ r).data = d.data ++ '/' :: r.data := by
  rw [String.data_append, String.data_append]
  simp [List.append_assoc]

theorem handle_call_url (fetchFn : OutboundCall → FetchOutcome)
    (r : ProxyRequest) (domain rem : String) (h1 : r.method ≠ "OPTIONS")
    (h2 : stripLeadingSlash r.pathname ≠ "")
    (h3 : matchPath (stripLeadingSlash r.pathname) = some (domain, rem)) :
    ((handleProxyRequest fetchFn r).2.map (fun c => c.url)) =
      some ("https://" ++ domain ++ "/" ++ rem ++ r.search) := by
  rw [handle_call fetchFn r domain rem h1 h2 h3]
  cases fetchFn ⟨"https://" ++ domain ++ "/" ++ rem ++ r.search, r.method,
    buildFwdHeaders r, r.method != "GET" && r.method != "HEAD"⟩ <;> rfl

/-- The fetch stub used by concrete witnesses: a plain 200 response with no
headers and no redirect. -/
def okFetchStub : OutboundCall → FetchOutcome :=
  fun _ => .ok ⟨200, "OK", [], false, "https://example.com/", 0⟩

/-! ### C4 -/

/-- C4: every OPTIONS request, whatever its path, yields status 200 with
exactly the five CORS headers, an empty body, and no upstream call. -/
theorem c4_options_short_circuit (fetchFn : OutboundCall → FetchOutcome)
    (r : ProxyRequest) (h : r.method = "OPTIONS") :
    handleProxyRequest fetchFn r =
      (⟨200, "",
        [("access-control-allow-origin", "*"),
         ("access-control-allow-methods", "POST, GET, OPTIONS"),
         ("access-control-allow-headers", String.intercalate ", " ALLOW_HEADERS),
         ("access-control-expose-headers", String.intercalate ", " EXPOSE_HEADERS),
         ("access-control-max-age", "86400")], .noBody⟩, none) := by
  rw [handle_options fetchFn r h]
  rfl

/-- C4 witness: a concrete OPTIONS request with an empty path. -/
theorem c4_options_short_circuit_witness :
    (("OPTIONS" : String) = "OPTIONS") ∧
    handleProxyRequest okFetchStub
        ⟨"OPTIONS", "/", "", "http:", "localhost:3000", [("cookie", "a=b")]⟩ =
      (⟨200, "",
        [("access-control-allow-origin", "*"),
         ("access-control-allow-methods", "POST, GET, OPTIONS"),
         ("access-control-allow-headers", String.intercalate ", " ALLOW_HEADERS),
         ("access-control-expose-headers", String.intercalate ", " EXPOSE_HEADERS),
         ("access-control-max-age", "86400")], .noBody⟩, none) :=
  ⟨rfl, c4_options_short_circuit okFetchStub
    ⟨"OPTIONS", "/", "", "http:", "localhost:3000", [("cookie", "a=b")]⟩ rfl⟩

/-! ### C8 -/

/-- C8: a non-OPTIONS request whose path is empty after stripping the
leading slash yields 400 with body &#x7b;"error":"Invalid proxy URL
format"&#x7d; and no upstream call. -/
theorem c8_empty_path (fetchFn : OutboundCall → FetchOutcome)
    (r : ProxyRequest) (h1 : r.method ≠ "OPTIONS")
    (h2 : stripLeadingSlash r.pathname = "") :
    handleProxyRequest fetchFn r =
      (⟨400, "", [("content-type", "application/json; charset=utf-8")],
        .jsonBody "\x7b\"error\":\"Invalid proxy URL format\"\x7d"⟩,
       none) := by
  rw [handle_invalid_url fetchFn r h1 h2]
  rfl

/-- C8 witness: a concrete GET request to the bare path. -/
theorem c8_empty_path_witness :
    (("GET" : String) ≠ "OPTIONS") ∧
    stripLeadingSlash "/" = "" ∧
    handleProxyRequest okFetchStub
        ⟨"GET", "/", "?q=1", "http:", "localhost:3000", []⟩ =
      (⟨400, "", [("content-type", "application/json; charset=utf-8")],
        .jsonBody "\x7b\"error\":\"Invalid proxy URL format\"\x7d"⟩,
       none) :=
  ⟨by decide, by decide,
   c8_empty_path okFetchStub ⟨"GET", "/", "?q=1", "http:", "localhost:3000", []⟩
     (by decide) (by decide)⟩

/-! ### C2 -/

/-- C2: for every non-OPTIONS request whose stripped path is
`domain/remainder` with a non-empty slash-free domain, the upstream URL is
`https://domain/remainder` with the query string appended verbatim; for a
bare domain the remainder is empty and the URL is `https://domain/` with the
query string appended.  (URL pathnames never contain raw newlines, hence the
newline-freedom hypothesis on the remainder.) -/
theorem c2_url_construction (fetchFn : OutboundCall → FetchOutcome)
    (method domain rem search protocol host : String)
    (headers : List (String × String))
    (hm : method ≠ "OPTIONS") (hd : domain.data ≠ [])
    (hds : ∀ c ∈ domain.data, c ≠ '/') (hrn : ∀ c ∈ rem.data, c ≠ '\n') :
    ((handleProxyRequest fetchFn
        ⟨method, "/" ++ (domain ++ "/" ++ rem), search, protocol, host,
         headers⟩).2.map (fun c => c.url)) =
      some ("https://" ++ domain ++ "/" ++ rem ++ search) ∧
    ((handleProxyRequest fetchFn
        ⟨method, "/" ++ domain, search, protocol, host,
         headers⟩).2.map (fun c => c.url)) =
      some ("https://" ++ domain ++ "/" ++ search) := by
  constructor
  · have hstrip : stripLeadingSlash ("/" ++ (domain ++ "/" ++ rem)) =
        domain ++ "/" ++ rem := stripLeadingSlash_concat _
    have h2 : stripLeadingSlash ("/" ++ (domain ++ "/" ++ rem)) ≠ "" := by
      rw [hstrip]
      intro hc
      have hdata := congrArg String.data hc
      rw [data_append_slash] at hdata
      cases hde : domain.data with
      | nil => exact hd hde
      | cons c t =>
        rw [hde] at hdata
        simp at hdata
    have h3 : matchPath (stripLeadingSlash ("/" ++ (domain ++ "/" ++ rem))) =
        some (domain, rem) := by
      rw [hstrip]
      exact matchPath_split domain rem hd hds hrn
    exact handle_call_url fetchFn _ domain rem hm h2 h3
  · have hstrip : stripLeadingSlash ("/" ++ domain) = domain :=
      stripLeadingSlash_concat _
    have h2 : stripLeadingSlash ("/" ++ domain) ≠ "" := by
      rw [hstrip]
      intro hc
      exact hd (congrArg String.data hc)
    have h3 : matchPath (stripLeadingSlash ("/" ++ domain)) =
        some (domain, "") := by
      rw [hstrip]
      exact matchPath_bare domain hd hds
    have hurl := handle_call_url fetchFn
      ⟨method, "/" ++ domain, search, protocol, host, headers⟩
      domain "" hm h2 h3
    rw [hurl, string_append_empty]

/-- C2 witness: `GET /example.com/foo/bar?x=1` and bare `GET /example.com`. -/
theorem c2_url_construction_witness :
    (("GET" : String) ≠ "OPTIONS") ∧
    ("example.com" : String).data ≠ [] ∧
    (∀ c ∈ ("example.com" : String).data, c ≠ '/') ∧
    (∀ c ∈ ("foo/bar" : String).data, c ≠ '\n') ∧
    (((handleProxyRequest okFetchStub
        ⟨"GET", "/" ++ ("example.com" ++ "/" ++ "foo/bar"), "?x=1", "http:",
         "localhost:3000", []⟩).2.map (fun c => c.url)) =
      some ("https://" ++ "example.com" ++ "/" ++ "foo/bar" ++ "?x=1") ∧
     ((handleProxyRequest okFetchStub
        ⟨"GET", "/" ++ "example.com", "?x=1", "http:",
         "localhost:3000", []⟩).2.map (fun c => c.url)) =
      some ("https://" ++ "example.com" ++ "/" ++ "?x=1")) :=
  ⟨by decide, by decide, by decide, by decide,
   c2_url_construction okFetchStub "GET" "example.com" "foo/bar" "?x=1"
     "http:" "localhost:3000" [] (by decide) (by decide) (by decide)
     (by decide)⟩

/-! ### C3 -/

/-- C3: on every forwarded request the outbound user-agent is the inbound
one when that starts with `git/` case-insensitively, and the fixed proxy
identifier when the inbound user-agent is missing or does not start with
`git/`. -/
theorem c3_ua_normalization (fetchFn : OutboundCall → FetchOutcome)
    (r : ProxyRequest) (call : OutboundCall)
    (h : (handleProxyRequest fetchFn r).2 = some call) :
    hGet call.headers "user-agent" =
      some (match hGet r.headers "user-agent" with
            | some v => if uaIsGit v then v else PROXY_USER_AGENT
            | none => PROXY_USER_AGENT) := by
  obtain ⟨d, rem, h1, h2, h3, hcall, hresp⟩ := handle_call_inv fetchFn r call h
  rw [hcall]
  exact hGet_fwd_ua r

/-- C3 witness: a `git/2.40.0` user-agent passes through unchanged. -/
theorem c3_ua_normalization_witness :
    ((handleProxyRequest okFetchStub
        ⟨"GET", "/example.com/x", "", "http:", "localhost:3000",
         [("User-Agent", "git/2.40.0")]⟩).2 =
      some ⟨"https://example.com/x", "GET",
        buildFwdHeaders ⟨"GET", "/example.com/x", "", "http:",
          "localhost:3000", [("User-Agent", "git/2.40.0")]⟩, false⟩) ∧
    hGet (⟨"https://example.com/x", "GET",
        buildFwdHeaders ⟨"GET", "/example.com/x", "", "http:",
          "localhost:3000", [("User-Agent", "git/2.40.0")]⟩, false⟩ :
        OutboundCall).headers "user-agent" = some "git/2.40.0" :=
  ⟨by decide,
   (c3_ua_normalization okFetchStub
     ⟨"GET", "/example.com/x", "", "http:", "localhost:3000",
      [("User-Agent", "git/2.40.0")]⟩
     ⟨"https://example.com/x", "GET",
      buildFwdHeaders ⟨"GET", "/example.com/x", "", "http:",
        "localhost:3000", [("User-Agent", "git/2.40.0")]⟩, false⟩
     (by decide)).trans (by decide)⟩

/-! ### C5 -/

/-- C5: on every successful upstream fetch the client-facing response never
carries a `content-length` header, even when upstream sent one. -/
theorem c5_no_content_length (fetchFn : OutboundCall → FetchOutcome)
    (r : ProxyRequest) (call : OutboundCall) (u : UpstreamResponse)
    (h : (handleProxyRequest fetchFn r).2 = some call)
    (hf : fetchFn call = .ok u) :
    hGet (handleProxyRequest fetchFn r).1.headers "content-length" =
      none := by
  obtain ⟨d, rem, h1, h2, h3, hcall, hresp⟩ := handle_call_inv fetchFn r call h
  rw [hresp, hf]
  exact relay_cl u

/-- C5 witness: upstream sends `content-length: 42`; the relayed response
has no `content-length`. -/
theorem c5_no_content_length_witness :
    ((handleProxyRequest
        (fun _ => .ok ⟨200, "OK", [("content-length", "42")], false,
          "https://example.com/x", 3⟩)
        ⟨"GET", "/example.com/x", "", "http:", "localhost:3000", []⟩).2 =
      some ⟨"https://example.com/x", "GET",
        buildFwdHeaders ⟨"GET", "/example.com/x", "", "http:",
          "localhost:3000", []⟩, false⟩) ∧
    ((fun (_ : OutboundCall) => FetchOutcome.ok
        (⟨200, "OK", [("content-length", "42")], false,
          "https://example.com/x", 3⟩ : UpstreamResponse))
      ⟨"https://example.com/x", "GET",
        buildFwdHeaders ⟨"GET", "/example.com/x", "", "http:",
          "localhost:3000", []⟩, false⟩ =
      .ok ⟨200, "OK", [("content-length", "42")], false,
        "https://example.com/x", 3⟩) ∧
    hGet (handleProxyRequest
        (fun _ => .ok ⟨200, "OK", [("content-length", "42")], false,
          "https://example.com/x", 3⟩)
        ⟨"GET", "/example.com/x", "", "http:", "localhost:3000",
         []⟩).1.headers "content-length" = none :=
  ⟨by decide, by decide,
   c5_no_content_length
     (fun _ => .ok ⟨200, "OK", [("content-length", "42")], false,
       "https://example.com/x", 3⟩)
     ⟨"GET", "/example.com/x", "", "http:", "localhost:3000", []⟩
     ⟨"https://example.com/x", "GET",
       buildFwdHeaders ⟨"GET", "/example.com/x", "", "http:",
         "localhost:3000", []⟩, false⟩
     ⟨200, "OK", [("content-length", "42")], false,
       "https://example.com/x", 3⟩
     (by decide) (by decide)⟩

/-! ### C7 -/

/-- C7: when the upstream fetch throws, the handler answers 500 with the
JSON envelope carrying `error: "Proxy error"`, the failure message, and the
attempted target URL. -/
theorem c7_fetch_failure (fetchFn : OutboundCall → FetchOutcome)
    (r : ProxyRequest) (call : OutboundCall) (e : FetchError)
    (h : (handleProxyRequest fetchFn r).2 = some call)
    (hf : fetchFn call = .failed e) :
    (handleProxyRequest fetchFn r).1 =
      jsonResponse 500 (jsonObj
        [("error", "Proxy error"), ("message", fetchErrorMessage e),
         ("url", call.url)]) := by
  obtain ⟨d, rem, h1, h2, h3, hcall, hresp⟩ := handle_call_inv fetchFn r call h
  rw [hresp, hf]

/-- C7 witness: a DNS-style failure yields the 500 JSON envelope with the
attempted URL. -/
theorem c7_fetch_failure_witness :
    ((handleProxyRequest (fun _ => .failed (.jsError "getaddrinfo ENOTFOUND"))
        ⟨"GET", "/nosuch.test/x", "", "http:", "localhost:3000", []⟩).2 =
      some ⟨"https://nosuch.test/x", "GET",
        buildFwdHeaders ⟨"GET", "/nosuch.test/x", "", "http:",
          "localhost:3000", []⟩, false⟩) ∧
    (handleProxyRequest (fun _ => .failed (.jsError "getaddrinfo ENOTFOUND"))
        ⟨"GET", "/nosuch.test/x", "", "http:", "localhost:3000", []⟩).1 =
      jsonResponse 500 (jsonObj
        [("error", "Proxy error"), ("message", "getaddrinfo ENOTFOUND"),
         ("url", "https://nosuch.test/x")]) :=
  ⟨by decide,
   c7_fetch_failure (fun _ => .failed (.jsError "getaddrinfo ENOTFOUND"))
     ⟨"GET", "/nosuch.test/x", "", "http:", "localhost:3000", []⟩
     ⟨"https://nosuch.test/x", "GET",
       buildFwdHeaders ⟨"GET", "/nosuch.test/x", "", "http:",
         "localhost:3000", []⟩, false⟩
     (.jsError "getaddrinfo ENOTFOUND") (by decide) (by decide)⟩

/-! ### C10 -/

/-- C10: for a non-OPTIONS request with a non-empty stripped path, the
handler answers 400 &#x7b;"error":"Invalid path format"&#x7d; with no
upstream call exactly when the path consists of `/` characters only;
otherwise an upstream call is made and the target domain is the first
maximal run of non-`/` characters of the path. -/
theorem c10_path_format (fetchFn : OutboundCall → FetchOutcome)
    (r : ProxyRequest) (h1 : r.method ≠ "OPTIONS")
    (h2 : stripLeadingSlash r.pathname ≠ "") :
    ((handleProxyRequest fetchFn r =
        (⟨400, "", [("content-type", "application/json; charset=utf-8")],
          .jsonBody "\x7b\"error\":\"Invalid path format\"\x7d"⟩, none))
      ↔ ∀ c ∈ (stripLeadingSlash r.pathname).data, c = '/') ∧
    ((∃ c ∈ (stripLeadingSlash r.pathname).data, c ≠ '/') →
      ∃ rem, ((handleProxyRequest fetchFn r).2.map (fun c => c.url)) =
        some ("https://" ++
          String.mk (((stripLeadingSlash r.pathname).data.dropWhile
              (fun c => c == '/')).takeWhile (fun c => c != '/')) ++
          "/" ++ rem ++ r.search)) := by
  constructor
  · constructor
    · intro heq
      by_contra hnall
      push_neg at hnall
      obtain ⟨c, hc, hcne⟩ := hnall
      have hmp : matchPath (stripLeadingSlash r.pathname) ≠ none := by
        rw [Ne, matchPath_eq_none_iff]
        push_neg
        exact ⟨c, hc, hcne⟩
      cases h3 : matchPath (stripLeadingSlash r.pathname) with
      | none => exact hmp h3
      | some pr =>
        obtain ⟨dm, rm⟩ := pr
        have hurl := handle_call_url fetchFn r dm rm h1 h2 h3
        rw [heq] at hurl
        simp at hurl
    · intro hall
      have h3 : matchPath (stripLeadingSlash r.pathname) = none :=
        (matchPath_eq_none_iff _).mpr hall
      rw [handle_invalid_path fetchFn r h1 h2 h3]
      rfl
  · intro hex
    obtain ⟨c, hc, hcne⟩ := hex
    have hmp : matchPath (stripLeadingSlash r.pathname) ≠ none := by
      rw [Ne, matchPath_eq_none_iff]
      push_neg
      exact ⟨c, hc, hcne⟩
    cases h3 : matchPath (stripLeadingSlash r.pathname) with
    | none => exact absurd h3 hmp
    | some pr =>
      obtain ⟨dm, rm⟩ := pr
      refine ⟨rm, ?_⟩
      have hurl := handle_call_url fetchFn r dm rm h1 h2 h3
      rw [hurl]
      have hdm : dm = String.mk
          (((stripLeadingSlash r.pathname).data.dropWhile
            (fun c => c == '/')).takeWhile (fun c => c != '/')) := by
        unfold matchPath at h3
        cases hr : regexSearch (stripLeadingSlash r.pathname).data with
        | none =>
          rw [hr] at h3
          exact Option.noConfusion h3
        | some rr =>
          rw [hr] at h3
          have h3' : (String.mk rr.1, String.mk rr.2) = (dm, rm) :=
            Option.some.inj h3
          have hfst := regexSearch_first_run _ rr hr
          have hh : String.mk rr.1 = dm := congrArg Prod.fst h3'
          rw [← hh, hfst]
      rw [hdm]

/-- C10 witness: path `//ex//a` (extra leading slash skipped, domain `ex`),
and all-slash path covered through the iff at `///`. -/
theorem c10_path_format_witness :
    (("GET" : String) ≠ "OPTIONS") ∧
    stripLeadingSlash "//ex//a" ≠ "" ∧
    (((handleProxyRequest okFetchStub
        ⟨"GET", "//ex//a", "", "http:", "localhost:3000", []⟩ =
        (⟨400, "", [("content-type", "application/json; charset=utf-8")],
          .jsonBody "\x7b\"error\":\"Invalid path format\"\x7d"⟩, none))
      ↔ ∀ c ∈ (stripLeadingSlash "//ex//a").data, c = '/') ∧
    ((∃ c ∈ (stripLeadingSlash "//ex//a").data, c ≠ '/') →
      ∃ rem, ((handleProxyRequest okFetchStub
          ⟨"GET", "//ex//a", "", "http:", "localhost:3000", []⟩).2.map
            (fun c => c.url)) =
        some ("https://" ++
          String.mk (((stripLeadingSlash "//ex//a").data.dropWhile
              (fun c => c == '/')).takeWhile (fun c => c != '/')) ++
          "/" ++ rem ++ ""))) :=
  ⟨by decide, by decide,
   c10_path_format okFetchStub
     ⟨"GET", "//ex//a", "", "http:", "localhost:3000", []⟩
     (by decide) (by decide)⟩

/-! ### C1 -/

/-- Concrete inbound request used to refute the unrestricted C1: it carries
an `x-forwarded-for` header, which is not in ALLOW_HEADERS. -/
def c1Req : ProxyRequest :=
  ⟨"GET", "/example.com/repo", "", "http:", "localhost:3000",
   [("x-forwarded-for", "203.0.113.7"), ("cookie", "a=b")]⟩

/-- C1 counterexample: the inbound `x-forwarded-for` header is outside the
allowlist, yet it appears on the outbound upstream request — with the
inbound value even, via the X-Forwarded-For context header. -/
theorem c1_counterexample :
    hGet c1Req.headers "x-forwarded-for" = some "203.0.113.7" ∧
    lowerName "x-forwarded-for" ∉ ALLOW_HEADERS ∧
    ((handleProxyRequest okFetchStub c1Req).2.map
      (fun c => hGet c.headers "x-forwarded-for")) =
        some (some "203.0.113.7") := by
  refine ⟨by decide, by decide, by decide⟩

/-- C1 (amended): an inbound header name outside the allowlist does not
appear among the outbound request headers, unless it is one of the three
forwarding-context names `x-forwarded-proto`, `x-forwarded-for`,
`x-forwarded-host` (which the proxy always sets itself). -/
theorem c1_amended_header_filter (fetchFn : OutboundCall → FetchOutcome)
    (r : ProxyRequest) (call : OutboundCall) (name : String)
    (h : (handleProxyRequest fetchFn r).2 = some call)
    (_hpresent : (hGet r.headers name).isSome)
    (hallow : lowerName name ∉ ALLOW_HEADERS)
    (hxf : lowerName name ∉ XF_HEADER_NAMES) :
    hGet call.headers name = none := by
  obtain ⟨d, rem, h1, h2, h3, hcall, hresp⟩ := handle_call_inv fetchFn r call h
  rw [hcall]
  exact hGet_fwd_none r name hallow hxf

/-- C1 witness: the inbound `cookie` header is dropped. -/
theorem c1_amended_header_filter_witness :
    ((handleProxyRequest okFetchStub c1Req).2 =
      some ⟨"https://example.com/repo", "GET", buildFwdHeaders c1Req,
        false⟩) ∧
    (hGet c1Req.headers "cookie").isSome ∧
    lowerName "cookie" ∉ ALLOW_HEADERS ∧
    lowerName "cookie" ∉ XF_HEADER_NAMES ∧
    hGet (⟨"https://example.com/repo", "GET", buildFwdHeaders c1Req,
      false⟩ : OutboundCall).headers "cookie" = none :=
  ⟨by decide, by decide, by decide, by decide,
   c1_amended_header_filter okFetchStub c1Req
     ⟨"https://example.com/repo", "GET", buildFwdHeaders c1Req, false⟩
     "cookie" (by decide) (by decide) (by decide) (by decide)⟩

/-! ### C6 -/

/-- Concrete request/upstream pair used to refute the unrestricted C6: the
upstream response carries `access-control-allow-origin`, which is not in
EXPOSE_HEADERS. -/
def c6Req : ProxyRequest :=
  ⟨"GET", "/example.com/repo", "", "http:", "localhost:3000", []⟩

/-- Upstream response carrying a non-exposelisted CORS header name. -/
def c6Upstream : UpstreamResponse :=
  ⟨200, "OK", [("access-control-allow-origin", "https://evil.example")],
   false, "https://example.com/repo", 0⟩

/-- C6 counterexample: `access-control-allow-origin` is present upstream and
not in the exposelist, yet the header name appears in the client-facing
response (with the proxy value `*`). -/
theorem c6_counterexample :
    hGet c6Upstream.headers "access-control-allow-origin" =
      some "https://evil.example" ∧
    lowerName "access-control-allow-origin" ∉ EXPOSE_HEADERS ∧
    hGet (handleProxyRequest (fun _ => .ok c6Upstream) c6Req).1.headers
      "access-control-allow-origin" = some "*" := by
  refine ⟨by decide, by decide, by decide⟩

/-- C6 (amended): an upstream response header name outside the exposelist
does not appear in the client-facing response, unless it is one of the five
CORS header names the proxy always sets itself. -/
theorem c6_amended_expose_filter (fetchFn : OutboundCall → FetchOutcome)
    (r : ProxyRequest) (call : OutboundCall) (u : UpstreamResponse)
    (name : String)
    (h : (handleProxyRequest fetchFn r).2 = some call)
    (hf : fetchFn call = .ok u)
    (_hpresent : (hGet u.headers name).isSome)
    (hexp : lowerName name ∉ EXPOSE_HEADERS)
    (hcors : lowerName name ∉ CORS_HEADER_NAMES) :
    hGet (handleProxyRequest fetchFn r).1.headers name = none := by
  obtain ⟨d, rem, h1, h2, h3, hcall, hresp⟩ := handle_call_inv fetchFn r call h
  rw [hresp, hf]
  exact relay_notmem u name hexp hcors

/-- C6 witness: an upstream `set-cookie` header is dropped. -/
theorem c6_amended_expose_filter_witness :
    ((handleProxyRequest
        (fun _ => .ok ⟨200, "OK", [("set-cookie", "sid=1")], false,
          "https://example.com/repo", 0⟩) c6Req).2 =
      some ⟨"https://example.com/repo", "GET", buildFwdHeaders c6Req,
        false⟩) ∧
    ((fun (_ : OutboundCall) => FetchOutcome.ok
        (⟨200, "OK", [("set-cookie", "sid=1")], false,
          "https://example.com/repo", 0⟩ : UpstreamResponse))
      ⟨"https://example.com/repo", "GET", buildFwdHeaders c6Req, false⟩ =
      .ok ⟨200, "OK", [("set-cookie", "sid=1")], false,
        "https://example.com/repo", 0⟩) ∧
    (hGet (⟨200, "OK", [("set-cookie", "sid=1")], false,
      "https://example.com/repo", 0⟩ : UpstreamResponse).headers
      "set-cookie").isSome ∧
    lowerName "set-cookie" ∉ EXPOSE_HEADERS ∧
    lowerName "set-cookie" ∉ CORS_HEADER_NAMES ∧
    hGet (handleProxyRequest
        (fun _ => .ok ⟨200, "OK", [("set-cookie", "sid=1")], false,
          "https://example.com/repo", 0⟩) c6Req).1.headers
      "set-cookie" = none :=
  ⟨by decide, by decide, by decide, by decide, by decide,
   c6_amended_expose_filter
     (fun _ => .ok ⟨200, "OK", [("set-cookie", "sid=1")], false,
       "https://example.com/repo", 0⟩)
     c6Req
     ⟨"https://example.com/repo", "GET", buildFwdHeaders c6Req, false⟩
     ⟨200, "OK", [("set-cookie", "sid=1")], false,
       "https://example.com/repo", 0⟩
     "set-cookie" (by decide) (by decide) (by decide) (by decide)
     (by decide)⟩

/-! ### C9 -/

/-- Upstream response that was not redirected but itself carries an
`x-redirected-url` header (which is in EXPOSE_HEADERS). -/
def c9Upstream : UpstreamResponse :=
  ⟨200, "OK", [("x-redirected-url", "https://sneaky.example/")], false,
   "https://example.com/repo", 0⟩

/-- C9 counterexample: no redirect occurred, yet the client-facing response
carries `x-redirected-url` (copied from upstream via the exposelist), and
its value is not the final resolved URL. -/
theorem c9_counterexample :
    c9Upstream.redirected = false ∧
    hGet (handleProxyRequest (fun _ => .ok c9Upstream) c6Req).1.headers
      "x-redirected-url" = some "https://sneaky.example/" ∧
    c9Upstream.url ≠ "https://sneaky.example/" := by
  refine ⟨by decide, by decide, by decide⟩

/-- C9 (amended): on a successful upstream fetch, the client-facing
`x-redirected-url` header equals the final resolved URL whenever the
upstream request was redirected; when no redirect occurred it equals the
upstream response's own `x-redirected-url` header (absent when upstream sent
none), since that name is in the exposelist. -/
theorem c9_amended_redirect_header (fetchFn : OutboundCall → FetchOutcome)
    (r : ProxyRequest) (call : OutboundCall) (u : UpstreamResponse)
    (h : (handleProxyRequest fetchFn r).2 = some call)
    (hf : fetchFn call = .ok u) :
    hGet (handleProxyRequest fetchFn r).1.headers "x-redirected-url" =
      (if u.redirected then some u.url
       else hGet u.headers "x-redirected-url") := by
  obtain ⟨d, rem, h1, h2, h3, hcall, hresp⟩ := handle_call_inv fetchFn r call h
  rw [hresp, hf]
  exact relay_xru u

/-- C9 witness: a redirected upstream fetch annotates the response with the
final URL. -/
theorem c9_amended_redirect_header_witness :
    ((handleProxyRequest
        (fun _ => .ok ⟨200, "OK", [], true, "https://final.example/z", 0⟩)
        c6Req).2 =
      some ⟨"https://example.com/repo", "GET", buildFwdHeaders c6Req,
        false⟩) ∧
    ((fun (_ : OutboundCall) => FetchOutcome.ok
        (⟨200, "OK", [], true, "https://final.example/z", 0⟩ :
          UpstreamResponse))
      ⟨"https://example.com/repo", "GET", buildFwdHeaders c6Req, false⟩ =
      .ok ⟨200, "OK", [], true, "https://final.example/z", 0⟩) ∧
    hGet (handleProxyRequest
        (fun _ => .ok ⟨200, "OK", [], true, "https://final.example/z", 0⟩)
        c6Req).1.headers "x-redirected-url" =
      (if (⟨200, "OK", [], true, "https://final.example/z", 0⟩ :
          UpstreamResponse).redirected
       then some (⟨200, "OK", [], true, "https://final.example/z", 0⟩ :
          UpstreamResponse).url
       else hGet (⟨200, "OK", [], true, "https://final.example/z", 0⟩ :
          UpstreamResponse).headers "x-redirected-url") :=
  ⟨by decide, by decide,
   c9_amended_redirect_header
     (fun _ => .ok ⟨200, "OK", [], true, "https://final.example/z", 0⟩)
     c6Req
     ⟨"https://example.com/repo", "GET", buildFwdHeaders c6Req, false⟩
     ⟨200, "OK", [], true, "https://final.example/z", 0⟩
     (by decide) (by decide)⟩
